import Mathlib

/-!
# Verification of Linux Show Player excerpts

Shallow embedding of two source files of the `linux-show-player` repository:

* `lisp/core/decorators.py` — thread-synchronization, suppression, memoization
  and runtime type-checking wrappers;
* `lisp/layouts/list_layout/layout.py` — the `ListLayout` cue-sequencing
  policy (`set_current_index`, `go`, `__cue_next`).

Python exceptions are embedded as an `Except PyErr` result; machine-level
details (Qt widgets, signals) are reduced to the state and event trace they
produce.  Cue objects are identified by a numeric id; Python `==` on cue
objects is identity, embedded as equality of ids, and the cue list of a show
holds each cue object once.
-/

/-- Python exception kinds raised or caught in the embedded code. -/
inductive PyErr
  | zeroDivisionError
  | indexError
  | keyError
  | typeError
  | runtimeError
  | exception
deriving DecidableEq, Repr

/-- `EndListBehavior` enum from `layout.py`. -/
inductive EndListBehavior
  | Stop
  | Restart
deriving DecidableEq, Repr

/-- `CueAction` (external enum, only its values are passed around here). -/
inductive CueAction
  | Default
  | custom (n : Nat)
deriving DecidableEq, Repr

/-- Observable side effects of the sequencing policy: `cue.execute(action)`
calls and `cue_executed` signal emissions, with the cue's id. -/
inductive Event
  | execute (cue : Nat) (action : CueAction)
  | cueExecuted (cue : Nat)
deriving DecidableEq, Repr

/-- The `ListLayout` state relevant to the sequencing policy.

* `cues` — the ordered cue list shared by `self._model_adapter` and the
  mirroring `self.listView` (ids, one per cue object; `len(model_adapter)`
  and `listView.topLevelItemCount()` are both `cues.length`);
* `currentIndex` — `listView.currentIndex().row()`, `-1` when nothing is
  selected (Qt convention);
* `autoContinue` — `self._auto_continue`;
* `endList` — `self._end_list`. -/
structure ListLayoutState where
  cues : List Nat
  currentIndex : Int
  autoContinue : Bool
  endList : EndListBehavior
deriving DecidableEq, Repr

/-- `ListLayout.set_current_index` (layout.py:213-219):

```python
def set_current_index(self, index):
    if self._end_list == EndListBehavior.Restart:
        index %= len(self.model_adapter)
    if 0 <= index < self.listView.topLevelItemCount():
        next_item = self.listView.topLevelItem(index)
        self.listView.setCurrentItem(next_item)
```

Python `%` with a positive modulus returns a value in `[0, modulus)`, as
`Int.emod` (Lean's `%` on `Int`) does; `x % 0` raises `ZeroDivisionError`.
Selecting the item at `index` sets the current row to `index`. -/
def set_current_index (st : ListLayoutState) (index : Int) :
    Except PyErr ListLayoutState := do
  let index ←
    if st.endList = EndListBehavior.Restart then
      if (st.cues.length : Int) = 0 then
        Except.error PyErr.zeroDivisionError
      else
        Except.ok (index % (st.cues.length : Int))
    else
      Except.ok index
  if 0 ≤ index ∧ index < (st.cues.length : Int) then
    Except.ok { st with currentIndex := index }
  else
    Except.ok st

example :
    set_current_index ⟨[10, 11, 12], 2, false, EndListBehavior.Stop⟩ 5 =
      Except.ok ⟨[10, 11, 12], 2, false, EndListBehavior.Stop⟩ := rfl

example :
    set_current_index ⟨[10, 11, 12], 2, false, EndListBehavior.Restart⟩ 5 =
      Except.ok ⟨[10, 11, 12], 2, false, EndListBehavior.Restart⟩ := rfl

example :
    set_current_index ⟨[10, 11, 12], 0, false, EndListBehavior.Restart⟩ (-1) =
      Except.ok ⟨[10, 11, 12], 2, false, EndListBehavior.Restart⟩ := rfl

example :
    set_current_index ⟨[], 0, false, EndListBehavior.Restart⟩ 4 =
      Except.error PyErr.zeroDivisionError := rfl

/-- Modelled from the spec: `CueLayout.current_cue` is not part of the
excerpt; per the spec, Go "executes the cue at `current_index` (if any)", so
the current cue is the cue at the selected row when that row is a valid list
position, and none otherwise (the row is `-1` when nothing is selected). -/
def current_cue (st : ListLayoutState) : Option Nat :=
  if st.currentIndex < 0 then none
  else st.cues[st.currentIndex.toNat]?

/-- `ListLayout.go` (layout.py:221-228):

```python
def go(self, action=CueAction.Default, advance=1):
    current_cue = self.current_cue()
    if current_cue is not None:
        current_cue.execute(action)
        self.cue_executed.emit(current_cue)
        if self._auto_continue:
            self.set_current_index(self.current_index() + advance)
```

Returns the new state and the trace of observable effects (`execute` call,
`cue_executed` emission), or the propagated Python exception. -/
def go (st : ListLayoutState) (action : CueAction) (advance : Int) :
    Except PyErr (ListLayoutState × List Event) :=
  match current_cue st with
  | none => Except.ok (st, [])
  | some c =>
    let evs := [Event.execute c action, Event.cueExecuted c]
    if st.autoContinue then
      match set_current_index st (st.currentIndex + advance) with
      | Except.ok st2 => Except.ok (st2, evs)
      | Except.error e => Except.error e
    else
      Except.ok (st, evs)

/-- Modelled from the spec: `CueTreeModel.get` is not part of the excerpt;
per the spec the container is "an ordered, indexable collection of cues
supporting length query, indexed lookup", whose lookup failures raise
index/key errors.  With contiguous indices an in-range lookup succeeds and an
out-of-range one raises `IndexError`. -/
def model_get (cues : List Nat) (i : Nat) : Except PyErr Nat :=
  match cues[i]? with
  | some c => Except.ok c
  | none => Except.error PyErr.indexError

/-- The `try` block of `ListLayout.__cue_next` (layout.py:399-407):

```python
next_index = cue.index + 1
if next_index < len(self._model_adapter):
    next_cue = self._model_adapter.get(next_index)
    next_cue.execute()

    if self._auto_continue and next_cue == self.current_cue():
        self.set_current_index(next_index + 1)
```

`cueIndex` is the `index` attribute of the cue that emitted `next`;
`next_cue.execute()` uses the default action. -/
def cue_next_body (st : ListLayoutState) (cueIndex : Nat) :
    Except PyErr (ListLayoutState × List Event) := do
  let next_index := cueIndex + 1
  if next_index < st.cues.length then
    let next_cue ← model_get st.cues next_index
    let evs := [Event.execute next_cue CueAction.Default]
    if st.autoContinue ∧ some next_cue = current_cue st then
      let st2 ← set_current_index st ((next_index : Int) + 1)
      Except.ok (st2, evs)
    else
      Except.ok (st, evs)
  else
    Except.ok (st, [])

/-- `ListLayout.__cue_next` (layout.py:399-409) with its
`except (IndexError, KeyError): pass` handler: those two exceptions are
absorbed (both can only arise before any observable effect in the body),
any other exception would propagate. -/
def cue_next (st : ListLayoutState) (cueIndex : Nat) :
    Except PyErr (ListLayoutState × List Event) :=
  match cue_next_body st cueIndex with
  | Except.error PyErr.indexError => Except.ok (st, [])
  | Except.error PyErr.keyError => Except.ok (st, [])
  | r => r

example :
    cue_next ⟨[10, 11], 1, true, EndListBehavior.Stop⟩ 1 =
      Except.ok (⟨[10, 11], 1, true, EndListBehavior.Stop⟩, []) := rfl

example :
    cue_next ⟨[10, 11], 1, true, EndListBehavior.Stop⟩ 0 =
      Except.ok (⟨[10, 11], 1, true, EndListBehavior.Stop⟩,
        [Event.execute 11 CueAction.Default]) := rfl

example :
    cue_next ⟨[10, 11], 1, true, EndListBehavior.Restart⟩ 0 =
      Except.ok (⟨[10, 11], 0, true, EndListBehavior.Restart⟩,
        [Event.execute 11 CueAction.Default]) := rfl

/-- Under Restart behavior with a non-empty list, `set_current_index`
selects `index % length`. -/
theorem set_current_index_restart_eq (st : ListLayoutState) (index : Int)
    (hR : st.endList = EndListBehavior.Restart) (hlen : 0 < st.cues.length) :
    set_current_index st index =
      Except.ok { st with currentIndex := index % (st.cues.length : Int) } := by
  have h0 : (0 : Int) < (st.cues.length : Int) := by exact_mod_cast hlen
  have hne : (st.cues.length : Int) ≠ 0 := ne_of_gt h0
  unfold set_current_index
  rw [if_pos hR, if_neg hne]
  show (if 0 ≤ index % (st.cues.length : Int) ∧
      index % (st.cues.length : Int) < (st.cues.length : Int) then _ else _) = _
  rw [if_pos ⟨Int.emod_nonneg index hne, Int.emod_lt_of_pos index h0⟩]

theorem set_current_index_stop_sel (st : ListLayoutState) (index : Int)
    (hS : st.endList = EndListBehavior.Stop)
    (h1 : 0 ≤ index) (h2 : index < (st.cues.length : Int)) :
    set_current_index st index = Except.ok { st with currentIndex := index } := by
  have hR : ¬ st.endList = EndListBehavior.Restart := by simp [hS]
  unfold set_current_index
  rw [if_neg hR]
  show (if 0 ≤ index ∧ index < (st.cues.length : Int) then _ else _) = _
  rw [if_pos ⟨h1, h2⟩]

theorem set_current_index_stop_ignored (st : ListLayoutState) (index : Int)
    (hS : st.endList = EndListBehavior.Stop)
    (hout : ¬ (0 ≤ index ∧ index < (st.cues.length : Int))) :
    set_current_index st index = Except.ok st := by
  have hR : ¬ st.endList = EndListBehavior.Restart := by simp [hS]
  unfold set_current_index
  rw [if_neg hR]
  show (if 0 ≤ index ∧ index < (st.cues.length : Int) then _ else _) = _
  rw [if_neg hout]

theorem set_current_index_isOk (st : ListLayoutState) (index : Int)
    (h : st.cues ≠ [] ∨ st.endList = EndListBehavior.Stop) :
    ∃ st2, set_current_index st index = Except.ok st2 ∧ st2.cues = st.cues := by
  cases hE : st.endList with
  | Restart =>
    have hne : st.cues ≠ [] := by
      rcases h with hne | hS
      · exact hne
      · rw [hS] at hE; cases hE
    exact ⟨_, set_current_index_restart_eq st index hE
      (List.length_pos.mpr hne), rfl⟩
  | Stop =>
    by_cases hc : 0 ≤ index ∧ index < (st.cues.length : Int)
    · exact ⟨_, set_current_index_stop_sel st index hE hc.1 hc.2, rfl⟩
    · exact ⟨_, set_current_index_stop_ignored st index hE hc, rfl⟩

/-- `-1 % n = n - 1` for a positive modulus, Python-style. -/
theorem neg_one_emod_eq (n : Int) (h0 : 0 < n) : (-1 : Int) % n = n - 1 := by
  have h1 : (-1 : Int) = (n - 1) + n * (-1) := by ring
  rw [h1, Int.add_mul_emod_self_left]
  exact Int.emod_eq_of_lt (by omega) (by omega)

/-- Claim C1 (statement): for every integer index, if `end_of_list_behavior`
is Restart (and the list is non-empty, so the modulo is defined),
`set_current_index` first reduces the index modulo the list length and then
selects that position; with Stop behavior an in-range index selects that
position and an out-of-range one leaves the current selection unchanged. -/
theorem c1_set_current_index (st : ListLayoutState) (index : Int) :
    (st.endList = EndListBehavior.Restart → 0 < st.cues.length →
      set_current_index st index =
        Except.ok { st with currentIndex := index % (st.cues.length : Int) }) ∧
    (st.endList = EndListBehavior.Stop →
      (0 ≤ index → index < (st.cues.length : Int) →
        set_current_index st index = Except.ok { st with currentIndex := index }) ∧
      (¬ (0 ≤ index ∧ index < (st.cues.length : Int)) →
        set_current_index st index = Except.ok st)) :=
  ⟨fun hR hlen => set_current_index_restart_eq st index hR hlen,
   fun hS => ⟨fun h1 h2 => set_current_index_stop_sel st index hS h1 h2,
     fun hout => set_current_index_stop_ignored st index hS hout⟩⟩

theorem c1_set_current_index_witness :
    (set_current_index ⟨[10, 11, 12], 2, false, EndListBehavior.Restart⟩ 5 =
      Except.ok ⟨[10, 11, 12], 2, false, EndListBehavior.Restart⟩) ∧
    (set_current_index ⟨[10, 11, 12], 2, false, EndListBehavior.Stop⟩ 5 =
      Except.ok ⟨[10, 11, 12], 2, false, EndListBehavior.Stop⟩) ∧
    (set_current_index ⟨[10, 11, 12], 0, false, EndListBehavior.Stop⟩ 1 =
      Except.ok ⟨[10, 11, 12], 1, false, EndListBehavior.Stop⟩) :=
  ⟨(c1_set_current_index _ 5).1 rfl (by decide),
   ((c1_set_current_index _ 5).2 rfl).2 (by decide),
   ((c1_set_current_index _ 1).2 rfl).1 (by decide) (by decide)⟩

/-- Claim C9: when the cue list is empty and `end_of_list_behavior` is
Restart, `set_current_index` raises `ZeroDivisionError` for every requested
index (the `index %= len(...)` step divides by zero). -/
theorem c9_empty_restart_zero_division (st : ListLayoutState) (index : Int)
    (hR : st.endList = EndListBehavior.Restart) (hE : st.cues = []) :
    set_current_index st index = Except.error PyErr.zeroDivisionError := by
  unfold set_current_index
  rw [if_pos hR, if_pos (by simp [hE])]
  rfl

theorem c9_empty_restart_zero_division_witness :
    set_current_index ⟨[], 0, false, EndListBehavior.Restart⟩ 4 =
      Except.error PyErr.zeroDivisionError :=
  c9_empty_restart_zero_division _ 4 rfl rfl

/-- Claim C10: when the cue list is non-empty and `end_of_list_behavior` is
Restart, `set_current_index` always selects an index in `[0, length)`, for
every integer input; in particular index `-1` selects the last cue. -/
theorem c10_restart_selects_in_range (st : ListLayoutState) (index : Int)
    (hR : st.endList = EndListBehavior.Restart) (hlen : 0 < st.cues.length) :
    set_current_index st index =
      Except.ok { st with currentIndex := index % (st.cues.length : Int) } ∧
    0 ≤ index % (st.cues.length : Int) ∧
    index % (st.cues.length : Int) < (st.cues.length : Int) ∧
    (index = -1 →
      index % (st.cues.length : Int) = (st.cues.length : Int) - 1) := by
  have h0 : (0 : Int) < (st.cues.length : Int) := by exact_mod_cast hlen
  have hne : (st.cues.length : Int) ≠ 0 := ne_of_gt h0
  refine ⟨set_current_index_restart_eq st index hR hlen,
    Int.emod_nonneg index hne, Int.emod_lt_of_pos index h0, ?_⟩
  intro hidx
  subst hidx
  exact neg_one_emod_eq _ h0

theorem c10_restart_selects_in_range_witness :
    set_current_index ⟨[10, 11, 12], 0, false, EndListBehavior.Restart⟩ (-1) =
      Except.ok ⟨[10, 11, 12], 2, false, EndListBehavior.Restart⟩ :=
  (c10_restart_selects_in_range _ (-1) rfl (by decide)).1

theorem model_get_eq_ok (cues : List Nat) (i : Nat) (h : i < cues.length) :
    model_get cues i = Except.ok (cues.get ⟨i, h⟩) := by
  unfold model_get
  rw [List.getElem?_eq_getElem h]
  rfl

theorem cue_next_body_out (st : ListLayoutState) (i : Nat)
    (h : st.cues.length ≤ i + 1) :
    cue_next_body st i = Except.ok (st, []) := by
  unfold cue_next_body
  rw [if_neg (by omega)]

theorem cue_next_body_no_follow (st : ListLayoutState) (i : Nat)
    (h : i + 1 < st.cues.length)
    (hnc : ¬ (st.autoContinue = true ∧
      some (st.cues.get ⟨i + 1, h⟩) = current_cue st)) :
    cue_next_body st i =
      Except.ok (st,
        [Event.execute (st.cues.get ⟨i + 1, h⟩) CueAction.Default]) := by
  unfold cue_next_body
  rw [if_pos h, model_get_eq_ok st.cues (i + 1) h]
  simp only [bind, Except.bind]
  rw [if_neg hnc]

theorem cue_next_body_follow (st : ListLayoutState) (i : Nat)
    (h : i + 1 < st.cues.length)
    (hc : st.autoContinue = true ∧
      some (st.cues.get ⟨i + 1, h⟩) = current_cue st) :
    ∃ st2, set_current_index st ((i : Int) + 2) = Except.ok st2 ∧
      cue_next_body st i =
        Except.ok (st2,
          [Event.execute (st.cues.get ⟨i + 1, h⟩) CueAction.Default]) := by
  have hne : st.cues ≠ [] := by
    intro hnil
    rw [hnil] at h
    simp at h
  obtain ⟨st2, hok, -⟩ :=
    set_current_index_isOk st ((i : Int) + 2) (Or.inl hne)
  refine ⟨st2, hok, ?_⟩
  have hcast : (((i + 1 : Nat) : Int) + 1) = (i : Int) + 2 := by
    push_cast
    ring
  unfold cue_next_body
  rw [if_pos h, model_get_eq_ok st.cues (i + 1) h]
  simp only [bind, Except.bind]
  rw [if_pos hc, hcast, hok]

theorem cue_next_eq_of_body_ok (st : ListLayoutState) (i : Nat)
    (r : ListLayoutState × List Event)
    (h : cue_next_body st i = Except.ok r) : cue_next st i = Except.ok r := by
  unfold cue_next
  rw [h]

/-- Claim C2 counterexample: two cues, selection on index 1, `auto_continue`
enabled, Stop behavior.  The cue at index 0 finishes: the cue at index 1 is
executed and it is the currently selected cue, so the claim predicts the
selection advances to index `i + 2 = 2`; but `set_current_index(2)` is out of
range and silently ignored, so the selection stays at 1, not 2. -/
theorem c2_counterexample :
    cue_next ⟨[10, 11], 1, true, EndListBehavior.Stop⟩ 0 =
      Except.ok (⟨[10, 11], 1, true, EndListBehavior.Stop⟩,
        [Event.execute 11 CueAction.Default]) ∧
    (1 : Int) ≠ 2 :=
  ⟨rfl, by decide⟩

/-- Claim C2 (amended): when the cue at index `i` signals "next": if `i + 1`
is within the list range, the cue at index `i + 1` is executed, and
additionally, if `auto_continue` is enabled and that cue equals the currently
selected cue, `set_current_index (i + 2)` is invoked, so the selection
advances subject to the Stop/Restart end-of-list rules (it may wrap under
Restart or stay put under Stop when `i + 2` is out of range); if `i + 1` is
out of range, or the lookup raises an index or key error, nothing happens;
in every case no exception escapes the handler. -/
theorem c2_cue_next (st : ListLayoutState) (i : Nat) :
    (st.cues.length ≤ i + 1 → cue_next st i = Except.ok (st, [])) ∧
    (∀ h : i + 1 < st.cues.length,
      (¬ (st.autoContinue = true ∧
          some (st.cues.get ⟨i + 1, h⟩) = current_cue st) →
        cue_next st i = Except.ok (st,
          [Event.execute (st.cues.get ⟨i + 1, h⟩) CueAction.Default])) ∧
      ((st.autoContinue = true ∧
          some (st.cues.get ⟨i + 1, h⟩) = current_cue st) →
        ∃ st2, set_current_index st ((i : Int) + 2) = Except.ok st2 ∧
          cue_next st i = Except.ok (st2,
            [Event.execute (st.cues.get ⟨i + 1, h⟩) CueAction.Default]))) ∧
    (∃ r, cue_next st i = Except.ok r) := by
  refine ⟨?_, ?_, ?_⟩
  · intro h
    exact cue_next_eq_of_body_ok st i _ (cue_next_body_out st i h)
  · intro h
    constructor
    · intro hnc
      exact cue_next_eq_of_body_ok st i _ (cue_next_body_no_follow st i h hnc)
    · intro hc
      obtain ⟨st2, hok, hbody⟩ := cue_next_body_follow st i h hc
      exact ⟨st2, hok, cue_next_eq_of_body_ok st i _ hbody⟩
  · by_cases h : i + 1 < st.cues.length
    · by_cases hc : st.autoContinue = true ∧
        some (st.cues.get ⟨i + 1, h⟩) = current_cue st
      · obtain ⟨st2, -, hbody⟩ := cue_next_body_follow st i h hc
        exact ⟨_, cue_next_eq_of_body_ok st i _ hbody⟩
      · exact ⟨_, cue_next_eq_of_body_ok st i _
          (cue_next_body_no_follow st i h hc)⟩
    · exact ⟨_, cue_next_eq_of_body_ok st i _
        (cue_next_body_out st i (by omega))⟩

theorem c2_cue_next_witness :
    cue_next ⟨[10, 11], 1, true, EndListBehavior.Stop⟩ 1 =
      Except.ok (⟨[10, 11], 1, true, EndListBehavior.Stop⟩, []) ∧
    cue_next ⟨[10, 11], 0, true, EndListBehavior.Stop⟩ 0 =
      Except.ok (⟨[10, 11], 0, true, EndListBehavior.Stop⟩,
        [Event.execute 11 CueAction.Default]) := by
  constructor
  · exact (c2_cue_next ⟨[10, 11], 1, true, EndListBehavior.Stop⟩ 1).1
      (by decide)
  · exact ((c2_cue_next ⟨[10, 11], 0, true, EndListBehavior.Stop⟩ 0).2.1
      (by decide)).1 (by decide)

/-- Claim C3: for every call to `go(action, advance)`: if there is a current
cue, it is executed with the given action and the `cue_executed` signal is
emitted for it, and — only if `auto_continue` is enabled — the current index
is advanced by the given step via `set_current_index` (so subject to its
Stop/Restart rules); if there is no current cue, no cue is executed, no
signal is emitted, and the current index is unchanged. -/
theorem c3_go (st : ListLayoutState) (action : CueAction) (advance : Int) :
    (current_cue st = none → go st action advance = Except.ok (st, [])) ∧
    (∀ c, current_cue st = some c →
      (st.autoContinue = false →
        go st action advance =
          Except.ok (st, [Event.execute c action, Event.cueExecuted c])) ∧
      (st.autoContinue = true →
        ∃ st2, set_current_index st (st.currentIndex + advance) =
            Except.ok st2 ∧
          go st action advance =
            Except.ok (st2,
              [Event.execute c action, Event.cueExecuted c]))) := by
  constructor
  · intro hnone
    unfold go
    rw [hnone]
  · intro c hc
    have hne : st.cues ≠ [] := by
      intro hnil
      unfold current_cue at hc
      by_cases hneg : st.currentIndex < 0
      · rw [if_pos hneg] at hc
        cases hc
      · rw [if_neg hneg, hnil] at hc
        simp at hc
    constructor
    · intro hac
      unfold go
      rw [hc]
      simp only [hac, Bool.false_eq_true, if_false]
    · intro hac
      obtain ⟨st2, hok, -⟩ :=
        set_current_index_isOk st (st.currentIndex + advance) (Or.inl hne)
      refine ⟨st2, hok, ?_⟩
      unfold go
      rw [hc]
      simp only [hac, if_true]
      rw [hok]

theorem c3_go_witness :
    go ⟨[10, 11], 0, true, EndListBehavior.Stop⟩ CueAction.Default 1 =
      Except.ok (⟨[10, 11], 1, true, EndListBehavior.Stop⟩,
        [Event.execute 10 CueAction.Default, Event.cueExecuted 10]) ∧
    go ⟨[10, 11], 0, false, EndListBehavior.Stop⟩ CueAction.Default 1 =
      Except.ok (⟨[10, 11], 0, false, EndListBehavior.Stop⟩,
        [Event.execute 10 CueAction.Default, Event.cueExecuted 10]) ∧
    go ⟨[10, 11], -1, true, EndListBehavior.Stop⟩ CueAction.Default 1 =
      Except.ok (⟨[10, 11], -1, true, EndListBehavior.Stop⟩, []) := by
  refine ⟨?_, ?_, ?_⟩
  · obtain ⟨st2, hok, hgo⟩ :=
      ((c3_go ⟨[10, 11], 0, true, EndListBehavior.Stop⟩
        CueAction.Default 1).2 10 rfl).2 rfl
    have hst2 : st2 = ⟨[10, 11], 1, true, EndListBehavior.Stop⟩ :=
      Except.ok.inj (hok.symm.trans rfl)
    rw [hst2] at hgo
    exact hgo
  · exact ((c3_go ⟨[10, 11], 0, false, EndListBehavior.Stop⟩
      CueAction.Default 1).2 10 rfl).1 rfl
  · exact (c3_go ⟨[10, 11], -1, true, EndListBehavior.Stop⟩
      CueAction.Default 1).1 rfl

/-- Python values passed as arguments through the embedded decorators. -/
inductive PyVal
  | int (i : Int)
  | str (s : String)
deriving DecidableEq, Repr

/-- `threading.RLock` state: `none` when unlocked, `some (owner, count)` when
held `count` times (`count ≥ 1`) by thread `owner` (threads are numbered). -/
abbrev RLockState := Option (Nat × Nat)

/-- `RLock.acquire` as observed by the wrapper at the moment the acquisition
attempt resolves: it succeeds when the lock is free or already held by the
calling thread (re-entry); it returns `False` when another thread holds the
lock and the call was non-blocking or its timeout elapsed. -/
def rlockAcquire (l : RLockState) (t : Nat) : Bool × RLockState :=
  match l with
  | none => (true, some (t, 1))
  | some (o, k) => if o = t then (true, some (t, k + 1)) else (false, l)

/-- `RLock.release`: decrements the recursion count, unlocking at zero;
raises `RuntimeError` when the calling thread does not hold the lock. -/
def rlockRelease (l : RLockState) (t : Nat) : Except PyErr RLockState :=
  match l with
  | none => Except.error PyErr.runtimeError
  | some (o, k) =>
    if o = t then
      if k = 1 then Except.ok none else Except.ok (some (t, k - 1))
    else
      Except.error PyErr.runtimeError

/-- The `synchronized` closure of `synchronized_function`
(decorators.py:80-93), called by thread `t` with the function's lock in
state `l`; `body` is the outcome of `target(*args, **kwargs)`:

```python
try:
    if target.__lock__.acquire(blocking=blocking, timeout=timeout):
        return target(*args, **kwargs)
    else:
        return
finally:
    try:
        target.__lock__.release()
    except RuntimeError:
        pass
```

`Except.ok none` is Python's bare `return` (the "no result" value) on the
failed-acquisition path; the `finally` release runs on every path, its
`RuntimeError` swallowed by the inner handler. -/
def synchronized_call {α : Type} (l : RLockState) (t : Nat)
    (body : Except PyErr α) : Except PyErr (Option α) × RLockState :=
  let acq := rlockAcquire l t
  let res : Except PyErr (Option α) :=
    if acq.1 then body.map some else Except.ok none
  match rlockRelease acq.2 t with
  | Except.ok l2 => (res, l2)
  | Except.error PyErr.runtimeError => (res, acq.2)
  | Except.error e => (Except.error e, acq.2)

/-- The `wrapped` closure of `synchronized_method` (decorators.py:123-144):
under the meta-lock it reads the per-instance lock attribute (`attr`,
`none` when the attribute is not yet defined), creating a fresh unlocked
`RLock` if absent, then proceeds exactly as `synchronized_call`. -/
def synchronized_method_call {α : Type} (attr : Option RLockState) (t : Nat)
    (body : Except PyErr α) : Except PyErr (Option α) × RLockState :=
  let lock : RLockState :=
    match attr with
    | none => none
    | some l => l
  synchronized_call lock t body

/-- Claim C4: for the re-entrant lock wrappers — failed acquisition (another
thread holds the lock, non-blocking or timed-out mode) returns the no-result
value without invoking the body and without raising, leaving the lock
untouched; successful acquisition (free lock, or re-entry by the owner)
returns the body's outcome and restores the lock even when the body raises;
the release attempted on the failed path is swallowed, not propagated.  The
method wrapper behaves identically after resolving (or lazily creating) the
per-instance lock. -/
theorem c4_synchronized {α : Type} (l : RLockState) (t : Nat)
    (body : Except PyErr α) :
    (∀ o k, l = some (o, k) → o ≠ t →
      synchronized_call l t body = (Except.ok none, l) ∧
      synchronized_method_call (some l) t body = (Except.ok none, l)) ∧
    (l = none →
      synchronized_call l t body = (body.map some, none)) ∧
    (∀ k, l = some (t, k) → 1 ≤ k →
      synchronized_call l t body = (body.map some, l)) ∧
    synchronized_method_call none t body = (body.map some, none) := by
  refine ⟨?_, ?_, ?_, ?_⟩
  · intro o k hl hne
    subst hl
    constructor
    · simp [synchronized_call, rlockAcquire, rlockRelease, hne]
    · simp [synchronized_method_call, synchronized_call, rlockAcquire,
        rlockRelease, hne]
  · intro hl
    subst hl
    simp [synchronized_call, rlockAcquire, rlockRelease]
  · intro k hl hk
    subst hl
    have hk1 : k + 1 ≠ 1 := by omega
    simp [synchronized_call, rlockAcquire, rlockRelease, hk1]
  · simp [synchronized_method_call, synchronized_call, rlockAcquire,
      rlockRelease]

theorem c4_synchronized_witness :
    synchronized_call (some (5, 1)) 3 (Except.ok (7 : Nat)) =
      (Except.ok none, some (5, 1)) ∧
    synchronized_call (some (3, 2)) 3
        (Except.error (α := Nat) PyErr.exception) =
      (Except.error PyErr.exception, some (3, 2)) ∧
    synchronized_method_call none 3 (Except.ok (7 : Nat)) =
      (Except.ok (some 7), none) :=
  ⟨((c4_synchronized (some (5, 1)) 3 (Except.ok 7)).1 5 1 rfl
      (by decide)).1,
   (c4_synchronized (some (3, 2)) 3 (Except.error PyErr.exception)).2.2.1 2
      rfl (by decide),
   (c4_synchronized none 3 (Except.ok 7)).2.2.2⟩

/-- Control location of a thread making one call to a wrapped function with
`blocking=True, timeout=-1`: not yet called, inside the body, returned. -/
inductive ThreadPC
  | idle
  | inBody
  | done
deriving DecidableEq, Repr

/-- Two threads (ids 1 and 2) each invoke the same `synchronized`-wrapped
function concurrently; `lock` is the shared `target.__lock__`. -/
structure SyncSystem where
  pc1 : ThreadPC
  pc2 : ThreadPC
  lock : RLockState
deriving DecidableEq, Repr

/-- Interleaved small-step semantics of the wrapper under
`blocking=True, timeout=-1`: a thread enters the body exactly when its
blocking `acquire` succeeds (lock free, or re-entry by the owner — a waiting
thread simply has no enabled step until then); leaving the body performs the
`finally` release. -/
inductive SyncStep : SyncSystem → SyncSystem → Prop
  | enter1 (s : SyncSystem) :
      s.pc1 = ThreadPC.idle → (rlockAcquire s.lock 1).1 = true →
      SyncStep s { s with pc1 := ThreadPC.inBody,
                          lock := (rlockAcquire s.lock 1).2 }
  | exit1 (s : SyncSystem) (l2 : RLockState) :
      s.pc1 = ThreadPC.inBody → rlockRelease s.lock 1 = Except.ok l2 →
      SyncStep s { s with pc1 := ThreadPC.done, lock := l2 }
  | enter2 (s : SyncSystem) :
      s.pc2 = ThreadPC.idle → (rlockAcquire s.lock 2).1 = true →
      SyncStep s { s with pc2 := ThreadPC.inBody,
                          lock := (rlockAcquire s.lock 2).2 }
  | exit2 (s : SyncSystem) (l2 : RLockState) :
      s.pc2 = ThreadPC.inBody → rlockRelease s.lock 2 = Except.ok l2 →
      SyncStep s { s with pc2 := ThreadPC.done, lock := l2 }

/-- Both threads start outside the wrapper with the lock unlocked. -/
def syncInit : SyncSystem := ⟨ThreadPC.idle, ThreadPC.idle, none⟩

/-- States the two-thread system can reach from the initial state. -/
def SyncReachable (s : SyncSystem) : Prop :=
  Relation.ReflTransGen SyncStep syncInit s

/-- A thread inside the body holds the lock. -/
def SyncInv (s : SyncSystem) : Prop :=
  (s.pc1 = ThreadPC.inBody → ∃ k, s.lock = some (1, k)) ∧
  (s.pc2 = ThreadPC.inBody → ∃ k, s.lock = some (2, k))

theorem syncInv_step {s s2 : SyncSystem} (h : SyncStep s s2)
    (hinv : SyncInv s) : SyncInv s2 := by
  cases h with
  | enter1 hpc hacq =>
    constructor
    · intro _
      match hl : s.lock with
      | none => exact ⟨1, by simp [rlockAcquire, hl]⟩
      | some (o, k) =>
        by_cases ho : o = 1
        · subst ho
          exact ⟨k + 1, by simp [rlockAcquire, hl]⟩
        · rw [hl] at hacq
          simp [rlockAcquire, ho] at hacq
    · intro h2
      obtain ⟨k, hl⟩ := hinv.2 h2
      rw [hl] at hacq
      simp [rlockAcquire] at hacq
  | exit1 l2 hpc hrel =>
    obtain ⟨k1, hl1⟩ := hinv.1 hpc
    constructor
    · intro h1
      cases h1
    · intro h2
      obtain ⟨k2, hl2⟩ := hinv.2 h2
      rw [hl1] at hl2
      simp at hl2
  | enter2 hpc hacq =>
    constructor
    · intro h1
      obtain ⟨k, hl⟩ := hinv.1 h1
      rw [hl] at hacq
      simp [rlockAcquire] at hacq
    · intro _
      match hl : s.lock with
      | none => exact ⟨1, by simp [rlockAcquire, hl]⟩
      | some (o, k) =>
        by_cases ho : o = 2
        · subst ho
          exact ⟨k + 1, by simp [rlockAcquire, hl]⟩
        · rw [hl] at hacq
          simp [rlockAcquire, ho] at hacq
  | exit2 l2 hpc hrel =>
    obtain ⟨k2, hl2⟩ := hinv.2 hpc
    constructor
    · intro h1
      obtain ⟨k1, hl1⟩ := hinv.1 h1
      rw [hl1] at hl2
      simp at hl2
    · intro h2
      cases h2

theorem syncInv_reachable (s : SyncSystem) (h : SyncReachable s) :
    SyncInv s := by
  induction h with
  | refl =>
    constructor
    · intro h1
      cases h1
    · intro h2
      cases h2
  | @tail b c hreach hstep ih => exact syncInv_step hstep ih

/-- Claim C8: for callables wrapped with the re-entrant lock under
`blocking=True, timeout=-1`, two concurrently invoking threads serialize —
in no reachable interleaving are both threads inside the wrapped body at
once, so the second body cannot begin before the first completes — and
re-entry by the thread already owning the lock always succeeds immediately
(`acquire` returns true at once), so the same thread re-entering the wrapped
callable does not deadlock. -/
theorem c8_serialization (s : SyncSystem) (hs : SyncReachable s) :
    ¬ (s.pc1 = ThreadPC.inBody ∧ s.pc2 = ThreadPC.inBody) ∧
    ∀ t k, (rlockAcquire (some (t, k)) t).1 = true := by
  constructor
  · rintro ⟨h1, h2⟩
    obtain ⟨k1, hl1⟩ := (syncInv_reachable s hs).1 h1
    obtain ⟨k2, hl2⟩ := (syncInv_reachable s hs).2 h2
    rw [hl1] at hl2
    simp at hl2
  · intro t k
    simp [rlockAcquire]

theorem c8_serialization_witness :
    ¬ ((⟨ThreadPC.inBody, ThreadPC.idle, some (1, 1)⟩ : SyncSystem).pc1 =
        ThreadPC.inBody ∧
      (⟨ThreadPC.inBody, ThreadPC.idle, some (1, 1)⟩ : SyncSystem).pc2 =
        ThreadPC.inBody) :=
  (c8_serialization ⟨ThreadPC.inBody, ThreadPC.idle, some (1, 1)⟩
    (Relation.ReflTransGen.single (SyncStep.enter1 syncInit rfl rfl))).1

/-- Python `repr` of a value, as it appears inside `str(args)` /
`str(kwargs)` (string braces and quotes written as escapes). -/
def PyVal.pyRepr : PyVal → String
  | PyVal.int i => toString i
  | PyVal.str s => "\x27" ++ s ++ "\x27"

/-- Python `str` of the positional-argument tuple, e.g. `(1, 2)`; a
one-element tuple prints with a trailing comma, `(1,)`. -/
def strArgsTuple : List PyVal → String
  | [] => "()"
  | [a] => "(" ++ a.pyRepr ++ ",)"
  | xs => "(" ++ String.intercalate ", " (xs.map PyVal.pyRepr) ++ ")"

/-- Python `str` of the keyword-argument dict in insertion order. -/
def strKwargsDict (kw : List (String × PyVal)) : String :=
  if kw = [] then "\x7b\x7d"
  else "\x7b" ++ String.intercalate ", "
    (kw.map fun p => "\x27" ++ p.1 ++ "\x27: " ++ p.2.pyRepr) ++ "\x7d"

/-- `key = str(args) + str(kwargs)` (decorators.py:180). -/
def memoKey (args : List PyVal) (kwargs : List (String × PyVal)) : String :=
  strArgsTuple args ++ strKwargsDict kwargs

/-- One call through the `memoizer` closure (decorators.py:178-183):

```python
key = str(args) + str(kwargs)
if key not in cache:
    cache[key] = obj(*args, **kwargs)
return cache[key]
```

The per-callable dict `obj.cache` is embedded as an association list, newest
entry first (keys stay unique: an entry is only added on a miss).  Returns
the call's result and the cache afterwards. -/
def memoizer (f : List PyVal → List (String × PyVal) → PyVal)
    (cache : List (String × PyVal))
    (args : List PyVal) (kwargs : List (String × PyVal)) :
    PyVal × List (String × PyVal) :=
  match cache.lookup (memoKey args kwargs) with
  | some v => (v, cache)
  | none =>
    (f args kwargs, (memoKey args kwargs, f args kwargs) :: cache)

/-- Claim C5: a call whose argument key (the concatenated textual form of
positional and keyword arguments) is already cached returns the cached
result with the cache unchanged and without invoking the body (the result is
the cached value, for every body `f`); a miss invokes the body and caches
the result under that key; two argument sets with different keys (such as
`f(1,2)` then `f(2,1)`) each invoke the body and are cached under distinct
keys. -/
theorem c5_memoize (f : List PyVal → List (String × PyVal) → PyVal)
    (cache : List (String × PyVal))
    (a b : List PyVal) (ka kb : List (String × PyVal)) :
    (∀ v, cache.lookup (memoKey a ka) = some v →
      memoizer f cache a ka = (v, cache)) ∧
    (cache.lookup (memoKey a ka) = none →
      memoizer f cache a ka = (f a ka, (memoKey a ka, f a ka) :: cache)) ∧
    (memoKey a ka ≠ memoKey b kb →
      cache.lookup (memoKey a ka) = none →
      cache.lookup (memoKey b kb) = none →
      memoizer f (memoizer f cache a ka).2 b kb =
        (f b kb,
          (memoKey b kb, f b kb) :: (memoKey a ka, f a ka) :: cache)) := by
  refine ⟨?_, ?_, ?_⟩
  · intro v hv
    unfold memoizer
    rw [hv]
  · intro hmiss
    unfold memoizer
    rw [hmiss]
  · intro hne hma hmb
    have hba : (memoKey b kb == memoKey a ka) = false :=
      beq_eq_false_iff_ne.mpr (fun h => hne h.symm)
    unfold memoizer
    rw [hma]
    simp only [List.lookup, hba, hmb]

/-- `f(args, kwargs) = args[0] + args[1]` on two int arguments. -/
def exF : List PyVal → List (String × PyVal) → PyVal
  | [PyVal.int i, PyVal.int j], _ => PyVal.int (i + j)
  | _, _ => PyVal.int 0

theorem c5_memoize_witness :
    memoizer exF [] [PyVal.int 1, PyVal.int 2] [] =
      (PyVal.int 3,
        [(memoKey [PyVal.int 1, PyVal.int 2] [], PyVal.int 3)]) ∧
    memoizer exF [(memoKey [PyVal.int 1, PyVal.int 2] [], PyVal.int 99)]
        [PyVal.int 1, PyVal.int 2] [] =
      (PyVal.int 99,
        [(memoKey [PyVal.int 1, PyVal.int 2] [], PyVal.int 99)]) ∧
    memoizer exF (memoizer exF [] [PyVal.int 1, PyVal.int 2] []).2
        [PyVal.int 2, PyVal.int 1] [] =
      (PyVal.int 3,
        [(memoKey [PyVal.int 2, PyVal.int 1] [], PyVal.int 3),
         (memoKey [PyVal.int 1, PyVal.int 2] [], PyVal.int 3)]) :=
  ⟨(c5_memoize exF [] [PyVal.int 1, PyVal.int 2] [] [] []).2.1 rfl,
   (c5_memoize exF
      [(memoKey [PyVal.int 1, PyVal.int 2] [], PyVal.int 99)]
      [PyVal.int 1, PyVal.int 2] [] [] []).1 (PyVal.int 99) rfl,
   (c5_memoize exF [] [PyVal.int 1, PyVal.int 2]
      [PyVal.int 2, PyVal.int 1] [] []).2.2 (by decide) rfl rfl⟩

/-- Python types occurring as parameter annotations in the embedding. -/
inductive PyType
  | intType
  | strType
deriving DecidableEq, Repr

/-- `isinstance(value, t)` for the embedded values and types. -/
def PyVal.isinstance : PyVal → PyType → Bool
  | PyVal.int _, PyType.intType => true
  | PyVal.str _, PyType.strType => true
  | _, _ => false

/-- Value resolution in `typechecked` (decorators.py:203-208): the first
`len(args)` variable slots are positional (`args[index]`), otherwise the
name may have been passed as a keyword; a slot with neither is skipped. -/
def resolveArg (args : List PyVal) (kwargs : List (String × PyVal))
    (index : Nat) (name : String) : Option PyVal :=
  match args[index]? with
  | some v => some v
  | none => kwargs.lookup name

/-- The checking loop of `typechecked` (decorators.py:198-211), iterating
`enumerate(target.__code__.co_varnames)`:

```python
for index, name in enumerate(target.__code__.co_varnames):
    annotation = target.__annotations__.get(name)
    # Only check if annotation exists and a type
    if isinstance(annotation, type):
        # First len(args) are positional, after that keywords
        if index < len(args):
            value = args[index]
        elif name in kwargs:
            value = kwargs[name]
        else:
            continue
        if not isinstance(value, annotation):
            raise TypeError(...)
```

`varnames` is `co_varnames` (parameters first, then locals); `annMap` holds
the `__annotations__` entries that are types (entries that are not types are
never checked, hence absent — and locals carry no stored annotations). -/
def typecheckLoop (annMap : List (String × PyType)) (args : List PyVal)
    (kwargs : List (String × PyVal)) :
    List String → Nat → Except PyErr Unit
  | [], _ => Except.ok ()
  | name :: rest, index =>
    match annMap.lookup name with
    | none => typecheckLoop annMap args kwargs rest (index + 1)
    | some ann =>
      match resolveArg args kwargs index name with
      | none => typecheckLoop annMap args kwargs rest (index + 1)
      | some value =>
        if value.isinstance ann then
          typecheckLoop annMap args kwargs rest (index + 1)
        else
          Except.error PyErr.typeError

/-- The `wrapped` closure of `typechecked` (decorators.py:196-213): run the
checking loop from slot 0; a failed check raises before the body runs,
otherwise `target(*args, **kwargs)` is called and its result returned. -/
def typechecked_call (varnames : List String)
    (annMap : List (String × PyType)) (args : List PyVal)
    (kwargs : List (String × PyVal)) (body : Except PyErr PyVal) :
    Except PyErr PyVal :=
  match typecheckLoop annMap args kwargs varnames 0 with
  | Except.ok _ => body
  | Except.error e => Except.error e

/-- Some variable slot from position `start` onwards carries a type
annotation whose supplied (positional or keyword) value fails its
`isinstance` check. -/
def MismatchFrom (annMap : List (String × PyType)) (args : List PyVal)
    (kwargs : List (String × PyVal)) : List String → Nat → Prop
  | [], _ => False
  | name :: rest, start =>
    (∃ ann, annMap.lookup name = some ann ∧
      ∃ v, resolveArg args kwargs start name = some v ∧
        v.isinstance ann = false) ∨
    MismatchFrom annMap args kwargs rest (start + 1)

theorem typecheckLoop_spec (annMap : List (String × PyType))
    (args : List PyVal) (kwargs : List (String × PyVal)) :
    ∀ (names : List String) (start : Nat),
      (typecheckLoop annMap args kwargs names start = Except.ok () ∧
        ¬ MismatchFrom annMap args kwargs names start) ∨
      (typecheckLoop annMap args kwargs names start =
          Except.error PyErr.typeError ∧
        MismatchFrom annMap args kwargs names start) := by
  intro names
  induction names with
  | nil =>
    intro start
    exact Or.inl ⟨rfl, fun h => h⟩
  | cons name rest ih =>
    intro start
    cases hla : annMap.lookup name with
    | none =>
      rcases ih (start + 1) with ⟨hok, hnm⟩ | ⟨herr, hm⟩
      · refine Or.inl ⟨?_, ?_⟩
        · unfold typecheckLoop
          rw [hla]
          exact hok
        · rintro (⟨ann, hann, -⟩ | hm)
          · rw [hla] at hann
            cases hann
          · exact hnm hm
      · refine Or.inr ⟨?_, Or.inr hm⟩
        unfold typecheckLoop
        rw [hla]
        exact herr
    | some ann =>
      cases hres : resolveArg args kwargs start name with
      | none =>
        rcases ih (start + 1) with ⟨hok, hnm⟩ | ⟨herr, hm⟩
        · refine Or.inl ⟨?_, ?_⟩
          · unfold typecheckLoop
            rw [hla, hres]
            exact hok
          · rintro (⟨ann2, hann2, v, hv, -⟩ | hm)
            · rw [hla] at hann2
              cases hann2
              rw [hres] at hv
              cases hv
            · exact hnm hm
        · refine Or.inr ⟨?_, Or.inr hm⟩
          unfold typecheckLoop
          rw [hla, hres]
          exact herr
      | some v =>
        cases hiv : v.isinstance ann with
        | true =>
          rcases ih (start + 1) with ⟨hok, hnm⟩ | ⟨herr, hm⟩
          · refine Or.inl ⟨?_, ?_⟩
            · unfold typecheckLoop
              rw [hla, hres]
              show (if v.isinstance ann = true then
                  typecheckLoop annMap args kwargs rest (start + 1)
                else Except.error PyErr.typeError) = Except.ok ()
              rw [if_pos hiv]
              exact hok
            · rintro (⟨ann2, hann2, v2, hv2, hiv2⟩ | hm)
              · rw [hla] at hann2
                cases hann2
                rw [hres] at hv2
                cases hv2
                rw [hiv] at hiv2
                cases hiv2
              · exact hnm hm
          · refine Or.inr ⟨?_, Or.inr hm⟩
            unfold typecheckLoop
            rw [hla, hres]
            show (if v.isinstance ann = true then
                typecheckLoop annMap args kwargs rest (start + 1)
              else Except.error PyErr.typeError) =
              Except.error PyErr.typeError
            rw [if_pos hiv]
            exact herr
        | false =>
          refine Or.inr ⟨?_, Or.inl ⟨ann, hla, v, hres, hiv⟩⟩
          unfold typecheckLoop
          rw [hla, hres]
          show (if v.isinstance ann = true then
              typecheckLoop annMap args kwargs rest (start + 1)
            else Except.error PyErr.typeError) =
            Except.error PyErr.typeError
          rw [if_neg (by simp [hiv])]

theorem mismatchFrom_iff_exists (annMap : List (String × PyType))
    (args : List PyVal) (kwargs : List (String × PyVal)) :
    ∀ (names : List String) (start : Nat),
      MismatchFrom annMap args kwargs names start ↔
        ∃ j, ∃ h : j < names.length, ∃ ann,
          annMap.lookup (names.get ⟨j, h⟩) = some ann ∧
          ∃ v, resolveArg args kwargs (start + j) (names.get ⟨j, h⟩) =
              some v ∧ v.isinstance ann = false := by
  intro names
  induction names with
  | nil =>
    intro start
    constructor
    · intro h
      cases h
    · rintro ⟨j, h, -⟩
      simp at h
  | cons name rest ih =>
    intro start
    constructor
    · rintro (⟨ann, hla, v, hres, hiv⟩ | hm)
      · refine ⟨0, by simp, ann, by simpa using hla, v, ?_, hiv⟩
        simpa using hres
      · obtain ⟨j, h, ann, hla, v, hres, hiv⟩ := (ih (start + 1)).1 hm
        refine ⟨j + 1, Nat.succ_lt_succ h, ann, by simpa using hla, v,
          ?_, hiv⟩
        have harith : start + (j + 1) = start + 1 + j := by omega
        rw [harith]
        simpa using hres
    · rintro ⟨j, h, ann, hla, v, hres, hiv⟩
      cases j with
      | zero =>
        exact Or.inl ⟨ann, by simpa using hla, v, by simpa using hres, hiv⟩
      | succ j =>
        right
        refine (ih (start + 1)).2
          ⟨j, Nat.lt_of_succ_lt_succ h, ann, by simpa using hla, v, ?_, hiv⟩
        have harith : start + 1 + j = start + (j + 1) := by omega
        rw [harith]
        simpa using hres

/-- Claim C6: for the runtime type-check wrapper — whenever some declared
variable slot carries a type annotation whose supplied value (resolved
positionally by slot index, else by keyword name) fails its `isinstance`
check, the wrapper raises a type error before the body runs (the result is
the error, for every body); when no such mismatch exists — unannotated
slots and annotated slots with no supplied value are skipped — the body
runs and its result is returned.  The mismatch condition is exactly the
existence of a slot with an annotation and a failing supplied value. -/
theorem c6_typechecked (varnames : List String)
    (annMap : List (String × PyType)) (args : List PyVal)
    (kwargs : List (String × PyVal)) (body : Except PyErr PyVal) :
    (MismatchFrom annMap args kwargs varnames 0 →
      typechecked_call varnames annMap args kwargs body =
        Except.error PyErr.typeError) ∧
    (¬ MismatchFrom annMap args kwargs varnames 0 →
      typechecked_call varnames annMap args kwargs body = body) ∧
    (MismatchFrom annMap args kwargs varnames 0 ↔
      ∃ j, ∃ h : j < varnames.length, ∃ ann,
        annMap.lookup (varnames.get ⟨j, h⟩) = some ann ∧
        ∃ v, resolveArg args kwargs j (varnames.get ⟨j, h⟩) = some v ∧
          v.isinstance ann = false) := by
  refine ⟨?_, ?_, ?_⟩
  · intro hm
    rcases typecheckLoop_spec annMap args kwargs varnames 0 with
      ⟨-, hnm⟩ | ⟨herr, -⟩
    · exact absurd hm hnm
    · unfold typechecked_call
      rw [herr]
  · intro hnm
    rcases typecheckLoop_spec annMap args kwargs varnames 0 with
      ⟨hok, -⟩ | ⟨-, hm⟩
    · unfold typechecked_call
      rw [hok]
    · exact absurd hm hnm
  · have h := mismatchFrom_iff_exists annMap args kwargs varnames 0
    simpa using h

theorem c6_typechecked_witness :
    typechecked_call ["a"] [("a", PyType.intType)] [PyVal.str "x"] []
        (Except.ok (PyVal.int 0)) = Except.error PyErr.typeError ∧
    typechecked_call ["a"] [("a", PyType.intType)] [PyVal.int 1] []
        (Except.ok (PyVal.int 0)) = Except.ok (PyVal.int 0) ∧
    typechecked_call ["a"] [("a", PyType.intType)] [] [("a", PyVal.int 1)]
        (Except.ok (PyVal.int 0)) = Except.ok (PyVal.int 0) := by
  refine ⟨?_, ?_, ?_⟩
  · exact (c6_typechecked ["a"] [("a", PyType.intType)] [PyVal.str "x"] []
      (Except.ok (PyVal.int 0))).1
      (Or.inl ⟨PyType.intType, rfl, PyVal.str "x", rfl, rfl⟩)
  · refine (c6_typechecked ["a"] [("a", PyType.intType)] [PyVal.int 1] []
      (Except.ok (PyVal.int 0))).2.1 ?_
    rintro (⟨ann, hann, v, hv, hiv⟩ | hfalse)
    · obtain rfl : PyType.intType = ann := Option.some.inj hann
      obtain rfl : PyVal.int 1 = v := Option.some.inj hv
      exact absurd hiv (by decide)
    · exact hfalse
  · refine (c6_typechecked ["a"] [("a", PyType.intType)] []
      [("a", PyVal.int 1)] (Except.ok (PyVal.int 0))).2.1 ?_
    rintro (⟨ann, hann, v, hv, hiv⟩ | hfalse)
    · obtain rfl : PyType.intType = ann := Option.some.inj hann
      obtain rfl : PyVal.int 1 = v := Option.some.inj hv
      exact absurd hiv (by decide)
    · exact hfalse

/-- The `wrapped` closure of a bare `@suppress_exceptions` decoration
(decorators.py:156-162): any exception from the body is caught and logged
as a warning, and the wrapper falls through to Python's implicit
`return None`.  The second component is the warning log. -/
def suppress_wrapped (body : Except PyErr PyVal) :
    Except PyErr (Option PyVal) × List String :=
  match body with
  | Except.ok v => (Except.ok (some v), [])
  | Except.error _ => (Except.ok none, ["Exception suppressed"])

/-- The parameter names of `suppress_exceptions(target=None, *, log=True)`
(decorators.py:147), i.e. the keywords a call may bind. -/
def suppress_exceptions_kwnames : List String := ["target", "log"]

/-- A configured use `suppress_exceptions(log=b)` (decorators.py:153-154)
returns `partial(suppress_exceptions, print_exc=log)`; decorating a target
then applies that partial, calling `suppress_exceptions(target,
print_exc=b)`.  Python raises `TypeError` when a bound keyword is not among
the callee's parameters; only on success would the wrapper be produced. -/
def suppress_apply_configured (log : Bool) :
    Except PyErr
      (Except PyErr PyVal → Except PyErr (Option PyVal) × List String) :=
  if "print_exc" ∈ suppress_exceptions_kwnames then
    Except.ok suppress_wrapped
  else
    Except.error PyErr.typeError

/-- Claim C7, evaluated at the failing input: a keyword-configured use of
the suppression decorator (`suppress_exceptions(log=...)`, either value)
raises `TypeError` at decoration time instead of producing a wrapper,
because the partial binds `print_exc`, a keyword the function does not
accept — contradicting the claim (and the function's own docstring) that
every logging configuration yields a wrapper that suppresses body errors.
Only the bare decoration suppresses as claimed. -/
theorem c7_suppress_configured_type_error :
    suppress_apply_configured true = Except.error PyErr.typeError ∧
    suppress_apply_configured false = Except.error PyErr.typeError ∧
    suppress_wrapped (Except.error PyErr.exception) =
      (Except.ok none, ["Exception suppressed"]) ∧
    suppress_wrapped (Except.ok (PyVal.int 7)) =
      (Except.ok (some (PyVal.int 7)), []) := by
  refine ⟨?_, ?_, rfl, rfl⟩ <;>
    · unfold suppress_apply_configured
      rw [if_neg (by decide)]
